import Mathlib

/-!
Shallow embedding of the interpreter lifecycle and module-loading subsystem
of the mruby crate (src/mruby/src/interpreter.rs), together with the parts of
its collaborators (virtual filesystem, evaluation contexts, GC arena) that the
require algorithm touches.  Host strings are modelled as byte lists, matching
the fact that Rust `&str` is a UTF-8 validated view of the same bytes.
-/

/-- Byte strings: a Rust `String` / `&str` / `Vec<u8>` is a sequence of bytes. -/
abbrev Bytes := List Nat

/-- ASCII literal helper: the byte sequence of an ASCII Lean string. -/
def bytes (s : String) : Bytes := s.toList.map Char.toNat

/-- Decimal rendering of a natural number as ASCII bytes. -/
def natDecimal (n : Nat) : Bytes := (Nat.repr n).toList.map Char.toNat

/-- Continuation byte test for UTF-8 validation: 0x80 through 0xBF. -/
def contByte (b : Nat) : Bool := decide (128 ≤ b) && decide (b ≤ 191)

/-- UTF-8 validation scanner, modelling the check behind `CStr::to_str` in the
require entry point (src/mruby/src/interpreter.rs line 41).  Returns `none`
when the bytes are valid UTF-8 and otherwise `some (validUpTo, errorLen)` in
the sense of the standard library's decode error: `errorLen = none` marks an
incomplete trailing sequence. -/
def utf8Err : List Nat → Nat → Option (Nat × Option Nat)
  | [], _ => none
  | b :: rest, i =>
    if b < 128 then utf8Err rest (i + 1)
    else if 194 ≤ b ∧ b ≤ 223 then
      match rest with
      | [] => some (i, none)
      | b2 :: r => if contByte b2 then utf8Err r (i + 2) else some (i, some 1)
    else if b = 224 then
      match rest with
      | [] => some (i, none)
      | b2 :: r =>
        if decide (160 ≤ b2) && decide (b2 ≤ 191) then
          match r with
          | [] => some (i, none)
          | b3 :: r2 => if contByte b3 then utf8Err r2 (i + 3) else some (i, some 2)
        else some (i, some 1)
    else if 225 ≤ b ∧ b ≤ 236 then
      match rest with
      | [] => some (i, none)
      | b2 :: r =>
        if contByte b2 then
          match r with
          | [] => some (i, none)
          | b3 :: r2 => if contByte b3 then utf8Err r2 (i + 3) else some (i, some 2)
        else some (i, some 1)
    else if b = 237 then
      match rest with
      | [] => some (i, none)
      | b2 :: r =>
        if decide (128 ≤ b2) && decide (b2 ≤ 159) then
          match r with
          | [] => some (i, none)
          | b3 :: r2 => if contByte b3 then utf8Err r2 (i + 3) else some (i, some 2)
        else some (i, some 1)
    else if 238 ≤ b ∧ b ≤ 239 then
      match rest with
      | [] => some (i, none)
      | b2 :: r =>
        if contByte b2 then
          match r with
          | [] => some (i, none)
          | b3 :: r2 => if contByte b3 then utf8Err r2 (i + 3) else some (i, some 2)
        else some (i, some 1)
    else if b = 240 then
      match rest with
      | [] => some (i, none)
      | b2 :: r =>
        if decide (144 ≤ b2) && decide (b2 ≤ 191) then
          match r with
          | [] => some (i, none)
          | b3 :: r2 =>
            if contByte b3 then
              match r2 with
              | [] => some (i, none)
              | b4 :: r3 => if contByte b4 then utf8Err r3 (i + 4) else some (i, some 3)
            else some (i, some 2)
        else some (i, some 1)
    else if 241 ≤ b ∧ b ≤ 243 then
      match rest with
      | [] => some (i, none)
      | b2 :: r =>
        if contByte b2 then
          match r with
          | [] => some (i, none)
          | b3 :: r2 =>
            if contByte b3 then
              match r2 with
              | [] => some (i, none)
              | b4 :: r3 => if contByte b4 then utf8Err r3 (i + 4) else some (i, some 3)
            else some (i, some 2)
        else some (i, some 1)
    else if b = 244 then
      match rest with
      | [] => some (i, none)
      | b2 :: r =>
        if decide (128 ≤ b2) && decide (b2 ≤ 143) then
          match r with
          | [] => some (i, none)
          | b3 :: r2 =>
            if contByte b3 then
              match r2 with
              | [] => some (i, none)
              | b4 :: r3 => if contByte b4 then utf8Err r3 (i + 4) else some (i, some 3)
            else some (i, some 2)
        else some (i, some 1)
    else some (i, some 1)

/-- A byte sequence is valid UTF-8 when the scanner finds no error. -/
def utf8Valid (bs : Bytes) : Bool := (utf8Err bs 0).isNone

/-- Display text of the host standard library's UTF-8 decode error, used as the
ArgumentError message in the require entry point (`format of err`, line 45). -/
def utf8ErrorMsg (bs : Bytes) : Bytes :=
  match utf8Err bs 0 with
  | some (i, some n) =>
      bytes ("invalid utf-8 sequence of ") ++ natDecimal n ++
        bytes (" bytes from index ") ++ natDecimal i
  | some (i, none) => bytes ("incomplete utf-8 byte sequence from index ") ++ natDecimal i
  | none => []

/-- Model of `CStr::to_str`: a UTF-8 validated view of the same byte sequence,
so the success value is the input itself. -/
def cstrToStr (bs : Bytes) : Option Bytes := if utf8Valid bs then some bs else none

/-- Model of `Path::is_absolute` on unix paths: the path has a root component
exactly when it starts with a separator byte. -/
def isAbsolute (p : Bytes) : Bool :=
  match p with
  | [] => false
  | b :: _ => b = 47

/-- Model of `PathBuf::join`: pushing an absolute path replaces the base,
pushing a relative path appends it behind a separator. -/
def pathJoin (base p : Bytes) : Bytes :=
  if isAbsolute p then p else base ++ [47] ++ p

/-- The configured load root, `RUBY_LOAD_PATH` in src/mruby/src/interpreter.rs. -/
def rubyLoadPath : Bytes := bytes ("/src/lib")

/-- Candidate paths tried by require for a requested name, modelling lines
56 through 60 of src/mruby/src/interpreter.rs: the base is the load root for a
relative name and the name itself otherwise, and the candidates are the base
joined with the name and with the name plus a `.rb` extension. -/
def candidatePaths (name : Bytes) : List Bytes :=
  let path := if isAbsolute name then name else rubyLoadPath
  [pathJoin path name, pathJoin path (name ++ bytes (".rb"))]

/-- Per-path load metadata, `VfsMetadata` of the interpreter state: whether a
native loader is registered for the path (the `require` field, whose function
body is supplied separately by the loader environment since it acts on the
whole interpreter state) and whether the path was already required. -/
structure VfsMetadata where
  hasNativeLoader : Bool
  alreadyRequired : Bool
deriving DecidableEq, Repr

/-- Model of `VfsMetadata::new`: no native loader, not yet required. -/
def VfsMetadata.new : VfsMetadata := ⟨false, false⟩

/-- Model of `VfsMetadata::mark_required`. -/
def VfsMetadata.markRequired (m : VfsMetadata) : VfsMetadata :=
  { m with alreadyRequired := true }

/-- Modelled from the spec: a Vfs entry carries textual source content and the
per-path metadata; directories are entries that are not files. -/
structure VfsEntry where
  content : Bytes
  isDir : Bool
  metadata : VfsMetadata
deriving DecidableEq, Repr

/-- Modelled from the spec: the virtual filesystem is a finite map from logical
paths to entries (the mruby-vfs fake filesystem is not part of the sources). -/
abbrev Vfs := List (Bytes × VfsEntry)

/-- First-match lookup in the Vfs. -/
def vfsLookup : Vfs → Bytes → Option VfsEntry
  | [], _ => none
  | (q, e) :: rest, p => if q = p then some e else vfsLookup rest p

/-- Modelled from the spec: `is_file` holds for a registered non-directory. -/
def vfsIsFile (v : Vfs) (p : Bytes) : Bool :=
  match vfsLookup v p with
  | some e => !e.isDir
  | none => false

/-- Modelled from the spec: `read_file` returns the content of a file entry and
a not-found error otherwise. -/
def vfsReadFile (v : Vfs) (p : Bytes) : Except Bytes Bytes :=
  match vfsLookup v p with
  | some e => if e.isDir then .error (bytes ("not a file")) else .ok e.content
  | none => .error (bytes ("file not found"))

/-- Modelled from the spec: `metadata` returns the stored per-path record if
the path is registered. -/
def vfsMetadataOf (v : Vfs) (p : Bytes) : Option VfsMetadata :=
  (vfsLookup v p).map VfsEntry.metadata

/-- Modelled from the spec: `set_metadata` replaces the metadata of an existing
entry and fails when the path is not registered. -/
def vfsSetMetadata : Vfs → Bytes → VfsMetadata → Except Bytes Vfs
  | [], _, _ => .error (bytes ("file not found"))
  | (q, e) :: rest, p, m =>
    if q = p then .ok ((q, { e with metadata := m }) :: rest)
    else (vfsSetMetadata rest p m).map fun v => (q, e) :: v

/-- Modelled from the spec: `register_source` attaches textual source content
to a path, creating the entry when absent and leaving any native-loader
registration on the same path in place. -/
def registerSource : Vfs → Bytes → Bytes → Vfs
  | [], p, c => [(p, { content := c, isDir := false, metadata := VfsMetadata.new })]
  | (q, e) :: rest, p, c =>
    if q = p then (q, { e with content := c }) :: rest
    else (q, e) :: registerSource rest p c

/-- Modelled from the spec: `register_native_loader` marks a path as carrying a
native loader, creating the entry when absent and leaving any source content on
the same path in place. -/
def registerNativeLoader : Vfs → Bytes → Vfs
  | [], p =>
      [(p, { content := [], isDir := false,
             metadata := { VfsMetadata.new with hasNativeLoader := true } })]
  | (q, e) :: rest, p =>
    if q = p then (q, { e with metadata := { e.metadata with hasNativeLoader := true } }) :: rest
    else (q, e) :: registerNativeLoader rest p

/-- Model of an evaluation context, `EvalContext::new(filename)`: the filename
used for error-location reporting. -/
structure EvalContext where
  filename : Bytes
deriving DecidableEq, Repr

/-- Model of a pending VM exception object: its class, its message, and its
backtrace lines.  The textual shape of `inspect` on such an object is VM
behavior; it is exposed separately below. -/
structure ExcObj where
  eclass : Bytes
  message : Bytes
  backtrace : List Bytes
deriving DecidableEq, Repr

/-- Observable boundary events, an instrumentation trace recording each
foreign-boundary effect in the order it is performed. -/
inductive Event where
  | nativeLoader (path : Bytes)
  | evalSource (filename : Bytes)
  | evalTop (code : Bytes)
  | raised (eclass msg : Bytes)
  | excCleared
  | inspected
  | arenaSaved (depth : Nat)
  | arenaRestored (depth : Nat)
  | fullGc
  | definedClass (name : Bytes) (superclass : Option Bytes)
  | definedModule (name : Bytes)
  | installedSelfMethod (moduleName methodName : Bytes)
deriving DecidableEq, Repr

/-- Model of `sys::mrb_value` as far as the require entry point produces one:
nil or a boolean. -/
inductive MrbValue where
  | nil
  | bool (b : Bool)
deriving DecidableEq, Repr

/-- A VM-side class table entry: name and optional superclass name. -/
structure ClassDef where
  name : Bytes
  superclass : Option Bytes
deriving DecidableEq, Repr

/-- The interpreter state: the Vfs, the eval-context stack (head is the top),
the VM's pending-exception slot, the GC arena protection-stack depth, the VM
class table and Kernel method table, the lazy-initialization flag, and the
boundary event trace. -/
structure State where
  vfs : Vfs
  contextStack : List EvalContext
  exc : Option ExcObj
  arena : Nat
  classes : List ClassDef
  selfMethods : List (Bytes × Bytes)
  vmInitialized : Bool
  log : List Event
deriving DecidableEq, Repr

/-- Append a boundary event to the trace. -/
def logEvent (ev : Event) (s : State) : State := { s with log := s.log ++ [ev] }

/-- Modelled from the spec: `push_context` pushes onto the eval-context stack. -/
def pushContext (c : EvalContext) (s : State) : State :=
  { s with contextStack := c :: s.contextStack }

/-- Modelled from the spec: `pop_context` pops the top eval-context. -/
def popContext (s : State) : State :=
  { s with contextStack := s.contextStack.tail }

/-- Model of `sys::mrb_sys_raise`: records a freshly created exception of the
given class and message in the VM's pending-exception slot. -/
def raiseExc (eclass msg : Bytes) (s : State) : State :=
  { s with exc := some { eclass := eclass, message := msg, backtrace := [] },
           log := s.log ++ [.raised eclass msg] }

/-- An effect at the foreign boundary: a state transformer that also reports
success or an error display text, with the state threaded through in either
case (mutations performed before a failure persist). -/
abbrev Effect := State → Except Bytes Unit × State

/-- The behavior environment for the dynamic parts of require: the body of the
native loader registered at each path (stored as a function pointer in the real
metadata) and the VM's evaluation of source text. -/
structure Env where
  loader : Bytes → Effect
  evalRaw : Bytes → Effect

/-- Modelled from the spec: `eval_with_context` pushes the context before
evaluating a unit of code and pops it after, on success and on error alike. -/
def evalWithContext (env : Env) (contents : Bytes) (ctx : EvalContext) (s : State) :
    Except Bytes Unit × State :=
  let s1 := logEvent (.evalSource ctx.filename) (pushContext ctx s)
  let (r, s2) := env.evalRaw contents s1
  (r, popContext s2)

/-- Model of `raise_load_error` (src/mruby/src/interpreter.rs lines 25 through
32): raise a LoadError whose message appends the requested file name to the
load-error text, then produce the VM false value. -/
def raise_load_error (s : State) (file : Bytes) : MrbValue × State :=
  let message := bytes ("cannot load such file -- ") ++ file
  (MrbValue.bool false, raiseExc (bytes ("LoadError")) message s)

/-- The native-loader stage of one candidate iteration
(src/mruby/src/interpreter.rs lines 89 through 94): when the candidate has a
registered native loader, the context is pushed and the loader invoked first;
a loader error raises a RuntimeError and early-returns nil out of the entry
point, skipping the pop of the pushed context; on success the context is
popped. -/
def requireNative (env : Env) (path : Bytes) (ctx : EvalContext)
    (metadata : VfsMetadata) (s : State) : Except (MrbValue × State) State :=
  if metadata.hasNativeLoader then
    let s1 := logEvent (.nativeLoader path) (pushContext ctx s)
    match env.loader path s1 with
    | (.error msg, s2) => .error (MrbValue.nil, raiseExc (bytes ("RuntimeError")) msg s2)
    | (.ok _, s2) => .ok (popContext s2)
  else .ok s

/-- The source-evaluation and metadata-marking stage of one candidate
iteration (src/mruby/src/interpreter.rs lines 95 through 117): read the file
content (raising the load error when the read fails, the branch the source
comments call unreachable), evaluate it under the context, then persist the
stale metadata fetched before the loader ran, marked required.  An evaluation
or persist error raises a RuntimeError and early-returns nil. -/
def requireEvalAndMark (env : Env) (name path : Bytes) (ctx : EvalContext)
    (metadata : VfsMetadata) (s3 : State) : Except (MrbValue × State) (Bool × State) :=
  match vfsReadFile s3.vfs path with
  | .ok contents =>
    match evalWithContext env contents ctx s3 with
    | (.error msg, s4) => .error (MrbValue.nil, raiseExc (bytes ("RuntimeError")) msg s4)
    | (.ok _, s4) =>
      match vfsSetMetadata s4.vfs path metadata.markRequired with
      | .ok vfs2 => .ok (true, { s4 with vfs := vfs2 })
      | .error msg => .error (MrbValue.nil, raiseExc (bytes ("RuntimeError")) msg s4)
  | .error _ => .error (raise_load_error s3 name)

/-- One iteration of the candidate loop of require
(src/mruby/src/interpreter.rs lines 62 through 123).  A non-file candidate is
skipped; an already-required candidate short-circuits with the VM false value;
otherwise the native loader runs first, then the source text is evaluated and
the metadata marked required.  The error side of the result is an early return
out of the whole entry point; the success side says whether this candidate was
newly required and carries the updated state. -/
def requireStep (env : Env) (name path : Bytes) (s : State) :
    Except (MrbValue × State) (Bool × State) :=
  if vfsIsFile s.vfs path = false then .ok (false, s)
  else
    let metadata := (vfsMetadataOf s.vfs path).getD VfsMetadata.new
    if metadata.alreadyRequired then .error (MrbValue.bool false, s)
    else
      let context : EvalContext :=
        if utf8Valid path then ⟨path⟩ else ⟨bytes ("(require)")⟩
      match requireNative env path context metadata s with
      | .error out => .error out
      | .ok s3 => requireEvalAndMark env name path context metadata s3

/-- The candidate loop of require (src/mruby/src/interpreter.rs lines 61
through 129), processing candidates in order while tracking whether any
iteration successfully required a file; once all candidates are processed the
call answers the success flag, raising a LoadError carrying the requested name
when no candidate was ever a file. -/
def requireLoop (env : Env) (name : Bytes) :
    List Bytes → Bool → State → MrbValue × State
  | [], success, s =>
    if success then (MrbValue.bool success, s) else raise_load_error s name
  | path :: rest, success, s =>
    match requireStep env name path s with
    | .error out => out
    | .ok (b, s2) => requireLoop env name rest (success || b) s2

/-- Model of the `require` entry point (src/mruby/src/interpreter.rs lines 34
through 130): decode the argument bytes as UTF-8, raising an ArgumentError and
returning nil on failure; otherwise build the candidate paths and run the
candidate loop, answering true when any candidate was newly required and
raising a LoadError carrying the original requested name otherwise. -/
def require (env : Env) (s : State) (rawName : Bytes) : MrbValue × State :=
  match cstrToStr rawName with
  | none => (MrbValue.nil, raiseExc (bytes ("ArgumentError")) (utf8ErrorMsg rawName) s)
  | some name => requireLoop env name (candidatePaths name) false s

/-- Textual inspection of an exception object.  Modelled from the spec: the
content of the VM's `inspect` is not constrained by the spec beyond being the
exception's textual inspection; the model renders the message followed by the
class in parentheses, the shape the repository's expected error strings use. -/
def ExcObj.inspectText (e : ExcObj) : Bytes :=
  e.message ++ bytes (" (") ++ e.eclass ++ bytes (")")

/-- Joining a list of byte strings with a separator, modelling the `join`
invoked on the backtrace array. -/
def joinWith (sep : Bytes) : List Bytes → Bytes
  | [] => []
  | [x] => x
  | x :: y :: rest => x ++ sep ++ joinWith sep (y :: rest)

/-- Model of `current_exception` (src/mruby/src/interpreter.rs lines 237
through 277): open a GC arena savepoint, read the pending-exception slot and
clear it before any inspection, answer nothing when no exception was pending,
and otherwise invoke textual inspection and the backtrace listing on the
exception object, prepend the inspection to the backtrace and join with
newlines.  The four value-producing VM calls protect temporaries in the arena;
the savepoint is restored when the operation ends (modelled from the spec:
restore on every exit path of the bracketed operation). -/
def current_exception (s : State) : Option Bytes × State :=
  let save := s.arena
  let s1 := logEvent (.arenaSaved save) s
  let exc := s1.exc
  let s2 := logEvent .excCleared { s1 with exc := none }
  match exc with
  | none => (none, { s2 with arena := save, log := s2.log ++ [.arenaRestored save] })
  | some e =>
    let s3 := logEvent .inspected { s2 with arena := s2.arena + 4 }
    let joined := joinWith (bytes ("\n")) (e.inspectText :: e.backtrace)
    (some joined, { s3 with arena := save, log := s3.log ++ [.arenaRestored save] })

/-- Error type of the interpreter lifecycle calls, `MrbError` as far as the
sources under scrutiny construct it. -/
inductive MrbError where
  | New
  | Uninitialized
deriving DecidableEq, Repr

/-- Modelled from the spec: a module definition spec holding the self methods
added before `define` installs the module and its methods on the VM. -/
structure ModuleSpec where
  name : Bytes
  methods : List Bytes

/-- Modelled from the spec: defining a module spec on the interpreter records
the module and each added self method in the VM's method tables. -/
def ModuleSpec.defineOn (spec : ModuleSpec) (s : State) : State :=
  { s with
    selfMethods := s.selfMethods ++ spec.methods.map fun m => (spec.name, m),
    log := s.log ++ [.definedModule spec.name] ++
      spec.methods.map fun m => Event.installedSelfMethod spec.name m }

/-- Modelled from the spec: a class definition spec; the one-time superclass
link installed by `with_super_class` is modelled by the superclass name held by
the referenced spec. -/
structure ClassSpec where
  name : Bytes
  superclass : Option Bytes

/-- Modelled from the spec: defining a class spec on the interpreter creates
the class on the VM side with the recorded superclass link. -/
def ClassSpec.defineOn (spec : ClassSpec) (s : State) : State :=
  { s with
    classes := s.classes ++ [{ name := spec.name, superclass := spec.superclass }],
    log := s.log ++ [.definedClass spec.name spec.superclass] }

/-- Modelled from the spec: the state of a freshly opened VM instance; the core
class table already contains the root exception class, nothing is loaded, the
arena protection stack is empty and lazy self-initialization has not run. -/
def freshState : State :=
  { vfs := [], contextStack := [], exc := none, arena := 0,
    classes := [{ name := bytes ("Exception"), superclass := none }],
    selfMethods := [], vmInitialized := false, log := [] }

/-- Modelled from the spec: the throwaway evaluation performed during create
forces the VM's lazy self-initialization and generates startup garbage, here a
temporary left protected in the arena. -/
def bootEval (s : State) : State :=
  { s with vmInitialized := true, arena := s.arena + 1, log := s.log ++ [.evalTop []] }

/-- Model of `full_gc`: a full, non-incremental collection pass. -/
def full_gc (s : State) : State := logEvent .fullGc s

/-- Model of `Interpreter::create` (src/mruby/src/interpreter.rs lines 135
through 187).  The allocation outcome of the foreign `mrb_open` is the boolean
argument; a null instance fails with the allocation error.  On success the
require function is installed as a self method on the Kernel module, the
ScriptError and LoadError classes are defined with their superclass links to
the pre-existing root Exception class, and one throwaway evaluation runs inside
a GC arena savepoint which is then restored, followed by a full collection
pass, before the handle is returned. -/
def create (allocOk : Bool) : Except MrbError State :=
  if allocOk = false then .error .New
  else
    let s := freshState
    let kernel : ModuleSpec := { name := bytes ("Kernel"), methods := [bytes ("require")] }
    let s := kernel.defineOn s
    let scriptError : ClassSpec :=
      { name := bytes ("ScriptError"), superclass := some (bytes ("Exception")) }
    let s := scriptError.defineOn s
    let loadError : ClassSpec :=
      { name := bytes ("LoadError"), superclass := some (bytes ("ScriptError")) }
    let s := loadError.defineOn s
    let save := s.arena
    let s := logEvent (.arenaSaved save) s
    let s := bootEval s
    let s := { s with arena := save, log := s.log ++ [.arenaRestored save] }
    let s := full_gc s
    .ok s

/-- Class table lookup by name. -/
def findClass (s : State) (n : Bytes) : Option ClassDef :=
  s.classes.find? fun c => c.name == n

/-- Model of a non-null `mrb_state` as far as handle recovery reads it: the
user-data slot, itself a possibly-null pointer to the shared handle stored by
create; the stored handle is identified by a numeric id. -/
structure MrbStateMem where
  ud : Option Nat
deriving DecidableEq, Repr

/-- Model of the shared-ownership cell behind the stored handle: its strong
reference count. -/
structure RcCell where
  strong : Nat
deriving DecidableEq, Repr

/-- Model of `Interpreter::from_user_data` (src/mruby/src/interpreter.rs lines
190 through 214): fail when the raw VM pointer is null or the payload in its
user-data slot is null; otherwise the stored shared handle is borrowed back by
the transmute, cloned (incrementing the strong count), and the transmuted
original is forgotten so the VM keeps its stored copy alive; the clone of the
stored id is returned. -/
def from_user_data (mrb : Option MrbStateMem) (cell : RcCell) :
    Except MrbError (Nat × RcCell) :=
  match mrb with
  | none => .error .Uninitialized
  | some m =>
    match m.ud with
    | none => .error .Uninitialized
    | some id => .ok (id, { cell with strong := cell.strong + 1 })

/-- The already-required flag of a path's metadata, false for an unregistered
path; the observable that load-once semantics is stated over. -/
def metaRequired (v : Vfs) (p : Bytes) : Bool :=
  match vfsMetadataOf v p with
  | some m => m.alreadyRequired
  | none => false

/-- The native-loader flag of a path's metadata, false for an unregistered
path. -/
def metaHasLoader (v : Vfs) (p : Bytes) : Bool :=
  match vfsMetadataOf v p with
  | some m => m.hasNativeLoader
  | none => false

/-- An effect only appends to the boundary event trace. -/
def Appending (f : Effect) : Prop := ∀ s, ∃ t, ((f s).2).log = s.log ++ t

/-- Both environment effect families only append to the trace. -/
def EnvAppending (env : Env) : Prop :=
  (∀ p, Appending (env.loader p)) ∧ ∀ c, Appending (env.evalRaw c)

/-- An effect preserves every already-required mark. -/
def MetaMonotone (f : Effect) : Prop :=
  ∀ s p, metaRequired s.vfs p = true → metaRequired ((f s).2).vfs p = true

/-- Both environment effect families preserve already-required marks. -/
def EnvMetaMonotone (env : Env) : Prop :=
  (∀ p, MetaMonotone (env.loader p)) ∧ ∀ c, MetaMonotone (env.evalRaw c)

/-- An effect leaves the eval-context stack as it found it. -/
def StackPreserving (f : Effect) : Prop :=
  ∀ s, ((f s).2).contextStack = s.contextStack

/-- Both environment effect families leave the eval-context stack alone. -/
def EnvStackPreserving (env : Env) : Prop :=
  (∀ p, StackPreserving (env.loader p)) ∧ ∀ c, StackPreserving (env.evalRaw c)

/-- An effect that always reports success. -/
def AlwaysOk (f : Effect) : Prop := ∀ s, (f s).1 = .ok ()

/-- The trivial environment: loaders and evaluation succeed without touching
the state, usable to instantiate the environment-parametric theorems. -/
def envId : Env :=
  { loader := fun _ s => (.ok (), s), evalRaw := fun _ s => (.ok (), s) }

/-- The state carried by either side of a candidate-step outcome. -/
def stepState : Except (MrbValue × State) (Bool × State) → State
  | .error (_, s) => s
  | .ok (_, s) => s

/-- The state carried by either side of the native-loader stage outcome. -/
def stepStateN : Except (MrbValue × State) State → State
  | .error (_, s) => s
  | .ok s => s

/-- An environment whose native loaders all fail, leaving the state as found. -/
def envFail : Env :=
  { loader := fun _ s => (.error [], s), evalRaw := fun _ s => (.ok (), s) }

/-- A file entry carrying only source text. -/
def entrySrcOnly : VfsEntry :=
  { content := bytes ("1"), isDir := false, metadata := ⟨false, false⟩ }

/-- A file entry carrying both a native-loader registration and source text. -/
def entryBoth : VfsEntry :=
  { content := bytes ("1"), isDir := false, metadata := ⟨true, false⟩ }

/-- A file entry already marked required. -/
def entryRequired : VfsEntry :=
  { content := bytes ("1"), isDir := false, metadata := ⟨false, true⟩ }

/-- A file entry carrying only a native-loader registration. -/
def entryNativeOnly : VfsEntry :=
  { content := [], isDir := false, metadata := ⟨true, false⟩ }

/-- A state whose Vfs holds a source file at the resolved load-root path of
the name foo, already marked required. -/
def stateRequiredFoo : State :=
  { freshState with vfs := [(bytes ("/src/lib/foo.rb"), entryRequired)] }

/-- A state whose Vfs holds a source file at the absolute path /a.rb only. -/
def stateSlashA : State :=
  { freshState with vfs := [(bytes ("/a.rb"), entrySrcOnly)] }

/-- A state whose Vfs holds a native-loader-only file at the absolute path /x. -/
def stateSlashX : State :=
  { freshState with vfs := [(bytes ("/x"), entryNativeOnly)] }

/-- A state whose Vfs holds a file with both registrations at the resolved
load-root path of the name foo. -/
def stateBothFoo : State :=
  { freshState with vfs := [(bytes ("/src/lib/foo.rb"), entryBoth)] }

/-- A state with a required path at /q, for the monotonicity witness. -/
def stateRequiredQ : State :=
  { freshState with vfs := [(bytes ("/q"), entryRequired)] }

/-- A concrete pending exception object. -/
def excWaffles : ExcObj :=
  { eclass := bytes ("ArgumentError"), message := bytes ("waffles"),
    backtrace := [bytes ("(eval):1")] }

/-- A state with a pending exception and a nonempty arena. -/
def statePendingExc : State :=
  { freshState with exc := some excWaffles, arena := 3 }


theorem getD_alreadyRequired (v : Vfs) (p : Bytes) :
    ((vfsMetadataOf v p).getD VfsMetadata.new).alreadyRequired = metaRequired v p := by
  cases h : vfsMetadataOf v p <;> simp [metaRequired, h, VfsMetadata.new]

theorem getD_hasNativeLoader (v : Vfs) (p : Bytes) :
    ((vfsMetadataOf v p).getD VfsMetadata.new).hasNativeLoader = metaHasLoader v p := by
  cases h : vfsMetadataOf v p <;> simp [metaHasLoader, h, VfsMetadata.new]

theorem requireStep_skip (env : Env) (name path : Bytes) (s : State)
    (h : vfsIsFile s.vfs path = false) :
    requireStep env name path s = .ok (false, s) := by
  simp [requireStep, h]

theorem requireStep_already (env : Env) (name path : Bytes) (s : State)
    (h1 : vfsIsFile s.vfs path = true) (h2 : metaRequired s.vfs path = true) :
    requireStep env name path s = .error (MrbValue.bool false, s) := by
  have hm := getD_alreadyRequired s.vfs path
  rw [h2] at hm
  simp [requireStep, h1, hm]

theorem requireLoop_skip (env : Env) (name : Bytes) (pre rest : List Bytes)
    (succ : Bool) (s : State) (h : ∀ p ∈ pre, vfsIsFile s.vfs p = false) :
    requireLoop env name (pre ++ rest) succ s = requireLoop env name rest succ s := by
  induction pre with
  | nil => rfl
  | cons p pre ih =>
    have hp : vfsIsFile s.vfs p = false := h p (List.mem_cons_self p pre)
    have hrec : ∀ q ∈ pre, vfsIsFile s.vfs q = false :=
      fun q hq => h q (List.mem_cons_of_mem p hq)
    calc requireLoop env name ((p :: pre) ++ rest) succ s
        = requireLoop env name (pre ++ rest) (succ || false) s := by
          simp [requireLoop, requireStep_skip env name p s hp]
      _ = requireLoop env name rest succ s := by
          rw [Bool.or_false]; exact ih hrec

theorem metaRequired_setMetadata (v : Vfs) (p : Bytes) (m : VfsMetadata)
    (hm : m.alreadyRequired = true) :
    ∀ v2, vfsSetMetadata v p m = .ok v2 →
      ∀ q, metaRequired v q = true → metaRequired v2 q = true := by
  induction v with
  | nil => intro v2 h; simp [vfsSetMetadata] at h
  | cons head rest ih =>
    obtain ⟨a, e⟩ := head
    intro v2 h q hq
    by_cases hap : a = p
    · subst hap
      simp [vfsSetMetadata] at h
      subst h
      by_cases haq : a = q
      · subst haq
        simp [metaRequired, vfsMetadataOf, vfsLookup, hm]
      · simp [metaRequired, vfsMetadataOf, vfsLookup, haq] at hq ⊢
        exact hq
    · simp [vfsSetMetadata, hap] at h
      cases hrest : vfsSetMetadata rest p m with
      | error msg => rw [hrest] at h; simp [Except.map] at h
      | ok v3 =>
        rw [hrest] at h
        simp [Except.map] at h
        subst h
        by_cases haq : a = q
        · subst haq
          simpa [metaRequired, vfsMetadataOf, vfsLookup] using hq
        · simp [metaRequired, vfsMetadataOf, vfsLookup, haq] at hq ⊢
          exact ih v3 hrest q hq

theorem evalWithContext_eq (env : Env) (contents : Bytes) (ctx : EvalContext) (s : State) :
    evalWithContext env contents ctx s =
      ((env.evalRaw contents (logEvent (.evalSource ctx.filename) (pushContext ctx s))).1,
        popContext (env.evalRaw contents (logEvent (.evalSource ctx.filename) (pushContext ctx s))).2) :=
  rfl



theorem requireNative_meta (env : Env) (hM : EnvMetaMonotone env) (path : Bytes)
    (ctx : EvalContext) (metadata : VfsMetadata) (s : State) (q : Bytes)
    (hq : metaRequired s.vfs q = true) :
    metaRequired (stepStateN (requireNative env path ctx metadata s)).vfs q = true := by
  unfold requireNative
  cases hL : metadata.hasNativeLoader with
  | false => simpa [stepStateN] using hq
  | true =>
    simp only [if_pos]
    rcases hload : env.loader path (logEvent (.nativeLoader path) (pushContext ctx s))
      with ⟨r, s2⟩
    have hq2 : metaRequired s2.vfs q = true := by
      have hh := hM.1 path (logEvent (.nativeLoader path) (pushContext ctx s)) q
      rw [hload] at hh
      exact hh hq
    cases r with
    | error msg => simpa [stepStateN, raiseExc] using hq2
    | ok u => simpa [stepStateN, popContext] using hq2

theorem requireEvalAndMark_meta (env : Env) (hM : EnvMetaMonotone env)
    (name path : Bytes) (ctx : EvalContext) (metadata : VfsMetadata) (s3 : State)
    (q : Bytes) (hq : metaRequired s3.vfs q = true) :
    metaRequired (stepState (requireEvalAndMark env name path ctx metadata s3)).vfs q
      = true := by
  unfold requireEvalAndMark
  cases hread : vfsReadFile s3.vfs path with
  | error a => simpa [stepState, raise_load_error, raiseExc] using hq
  | ok contents =>
    dsimp only
    rw [evalWithContext_eq]
    rcases heval : env.evalRaw contents
      (logEvent (.evalSource ctx.filename) (pushContext ctx s3)) with ⟨r2, s4⟩
    have hq4 : metaRequired s4.vfs q = true := by
      have hh := hM.2 contents (logEvent (.evalSource ctx.filename) (pushContext ctx s3)) q
      rw [heval] at hh
      exact hh hq
    dsimp only
    cases r2 with
    | error msg => simpa [stepState, raiseExc, popContext] using hq4
    | ok u =>
      dsimp only
      cases hset : vfsSetMetadata (popContext s4).vfs path metadata.markRequired with
      | ok vfs2 =>
        simp only [stepState]
        exact metaRequired_setMetadata (popContext s4).vfs path _ rfl vfs2 hset q hq4
      | error msg => simpa [stepState, raiseExc, popContext] using hq4

theorem requireStep_meta (env : Env) (hM : EnvMetaMonotone env) (name path : Bytes)
    (s : State) (q : Bytes) (hq : metaRequired s.vfs q = true) :
    metaRequired (stepState (requireStep env name path s)).vfs q = true := by
  unfold requireStep
  by_cases hf : vfsIsFile s.vfs path = false
  · simpa [hf, stepState] using hq
  · rw [if_neg hf]
    by_cases hr : ((vfsMetadataOf s.vfs path).getD VfsMetadata.new).alreadyRequired = true
    · rw [if_pos hr]
      simpa [stepState] using hq
    · rw [if_neg hr]
      dsimp only
      have hnat := requireNative_meta env hM path
        (if utf8Valid path then ⟨path⟩ else ⟨bytes ("(require)")⟩)
        ((vfsMetadataOf s.vfs path).getD VfsMetadata.new) s q hq
      cases hcase : requireNative env path
          (if utf8Valid path then ⟨path⟩ else ⟨bytes ("(require)")⟩)
          ((vfsMetadataOf s.vfs path).getD VfsMetadata.new) s with
      | error out =>
        rw [hcase] at hnat
        simpa [stepStateN, stepState] using hnat
      | ok s3 =>
        rw [hcase] at hnat
        simp only [stepStateN] at hnat
        exact requireEvalAndMark_meta env hM name path
          (if utf8Valid path then ⟨path⟩ else ⟨bytes ("(require)")⟩)
          ((vfsMetadataOf s.vfs path).getD VfsMetadata.new) s3 q hnat

theorem requireLoop_meta (env : Env) (hM : EnvMetaMonotone env) (name : Bytes) :
    ∀ (cs : List Bytes) (succ : Bool) (s : State) (q : Bytes),
      metaRequired s.vfs q = true →
      metaRequired ((requireLoop env name cs succ s).2).vfs q = true := by
  intro cs
  induction cs with
  | nil =>
    intro succ s q hq
    cases succ with
    | true => simpa [requireLoop] using hq
    | false => simpa [requireLoop, raise_load_error, raiseExc] using hq
  | cons path rest ih =>
    intro succ s q hq
    have hstep := requireStep_meta env hM name path s q hq
    simp only [requireLoop]
    cases hcase : requireStep env name path s with
    | error out =>
      rw [hcase] at hstep
      simpa [stepState] using hstep
    | ok pair =>
      obtain ⟨b, s2⟩ := pair
      rw [hcase] at hstep
      simp only [stepState] at hstep
      exact ih (succ || b) s2 q hstep

theorem requireNative_stack (env : Env) (hOk : ∀ p, AlwaysOk (env.loader p))
    (hS : EnvStackPreserving env) (path : Bytes) (ctx : EvalContext)
    (metadata : VfsMetadata) (s : State) :
    (stepStateN (requireNative env path ctx metadata s)).contextStack = s.contextStack := by
  unfold requireNative
  cases hL : metadata.hasNativeLoader with
  | false => simp [stepStateN]
  | true =>
    simp only [if_pos]
    rcases hload : env.loader path (logEvent (.nativeLoader path) (pushContext ctx s))
      with ⟨r, s2⟩
    have hstack : s2.contextStack = ctx :: s.contextStack := by
      have hh := hS.1 path (logEvent (.nativeLoader path) (pushContext ctx s))
      rw [hload] at hh
      simpa [logEvent, pushContext] using hh
    cases r with
    | error msg =>
      have hok := hOk path (logEvent (.nativeLoader path) (pushContext ctx s))
      rw [hload] at hok
      simp at hok
    | ok u => simp [stepStateN, popContext, hstack]

theorem requireEvalAndMark_stack (env : Env) (hS : EnvStackPreserving env)
    (name path : Bytes) (ctx : EvalContext) (metadata : VfsMetadata) (s3 : State) :
    (stepState (requireEvalAndMark env name path ctx metadata s3)).contextStack
      = s3.contextStack := by
  unfold requireEvalAndMark
  cases hread : vfsReadFile s3.vfs path with
  | error a => simp [stepState, raise_load_error, raiseExc]
  | ok contents =>
    dsimp only
    rw [evalWithContext_eq]
    rcases heval : env.evalRaw contents
      (logEvent (.evalSource ctx.filename) (pushContext ctx s3)) with ⟨r2, s4⟩
    have hstack : s4.contextStack = ctx :: s3.contextStack := by
      have hh := hS.2 contents (logEvent (.evalSource ctx.filename) (pushContext ctx s3))
      rw [heval] at hh
      simpa [logEvent, pushContext] using hh
    dsimp only
    cases r2 with
    | error msg => simp [stepState, raiseExc, popContext, hstack]
    | ok u =>
      dsimp only
      cases hset : vfsSetMetadata (popContext s4).vfs path metadata.markRequired with
      | ok vfs2 => simp [stepState, popContext, hstack]
      | error msg => simp [stepState, raiseExc, popContext, hstack]

theorem requireStep_stack (env : Env) (hOk : ∀ p, AlwaysOk (env.loader p))
    (hS : EnvStackPreserving env) (name path : Bytes) (s : State) :
    (stepState (requireStep env name path s)).contextStack = s.contextStack := by
  unfold requireStep
  by_cases hf : vfsIsFile s.vfs path = false
  · simp [hf, stepState]
  · rw [if_neg hf]
    by_cases hr : ((vfsMetadataOf s.vfs path).getD VfsMetadata.new).alreadyRequired = true
    · rw [if_pos hr]
      simp [stepState]
    · rw [if_neg hr]
      dsimp only
      have hnat := requireNative_stack env hOk hS path
        (if utf8Valid path then ⟨path⟩ else ⟨bytes ("(require)")⟩)
        ((vfsMetadataOf s.vfs path).getD VfsMetadata.new) s
      cases hcase : requireNative env path
          (if utf8Valid path then ⟨path⟩ else ⟨bytes ("(require)")⟩)
          ((vfsMetadataOf s.vfs path).getD VfsMetadata.new) s with
      | error out =>
        rw [hcase] at hnat
        simpa [stepStateN, stepState] using hnat
      | ok s3 =>
        rw [hcase] at hnat
        simp only [stepStateN] at hnat
        rw [requireEvalAndMark_stack env hS name path
          (if utf8Valid path then ⟨path⟩ else ⟨bytes ("(require)")⟩)
          ((vfsMetadataOf s.vfs path).getD VfsMetadata.new) s3]
        exact hnat

theorem requireLoop_stack (env : Env) (hOk : ∀ p, AlwaysOk (env.loader p))
    (hS : EnvStackPreserving env) (name : Bytes) :
    ∀ (cs : List Bytes) (succ : Bool) (s : State),
      ((requireLoop env name cs succ s).2).contextStack = s.contextStack := by
  intro cs
  induction cs with
  | nil =>
    intro succ s
    cases succ with
    | true => simp [requireLoop]
    | false => simp [requireLoop, raise_load_error, raiseExc]
  | cons path rest ih =>
    intro succ s
    have hstep := requireStep_stack env hOk hS name path s
    simp only [requireLoop]
    cases hcase : requireStep env name path s with
    | error out =>
      rw [hcase] at hstep
      simpa [stepState] using hstep
    | ok pair =>
      obtain ⟨b, s2⟩ := pair
      rw [hcase] at hstep
      simp only [stepState] at hstep
      rw [ih (succ || b) s2]
      exact hstep

theorem requireNative_log (env : Env) (hA : EnvAppending env) (path : Bytes)
    (ctx : EvalContext) (metadata : VfsMetadata) (s : State) :
    ∃ t, (stepStateN (requireNative env path ctx metadata s)).log = s.log ++ t := by
  unfold requireNative
  cases hL : metadata.hasNativeLoader with
  | false => exact ⟨[], by simp [stepStateN]⟩
  | true =>
    simp only [if_pos]
    rcases hload : env.loader path (logEvent (.nativeLoader path) (pushContext ctx s))
      with ⟨r, s2⟩
    obtain ⟨t1, ht1⟩ : ∃ t1, s2.log = s.log ++ (Event.nativeLoader path :: t1) := by
      have hh := hA.1 path (logEvent (.nativeLoader path) (pushContext ctx s))
      rw [hload] at hh
      obtain ⟨t1, ht1⟩ := hh
      exact ⟨t1, by simpa [logEvent, pushContext] using ht1⟩
    cases r with
    | error msg =>
      refine ⟨Event.nativeLoader path :: t1 ++ [Event.raised (bytes ("RuntimeError")) msg], ?_⟩
      simp [stepStateN, raiseExc, ht1]
    | ok u => exact ⟨Event.nativeLoader path :: t1, by simp [stepStateN, popContext, ht1]⟩

theorem requireEvalAndMark_log (env : Env) (hA : EnvAppending env)
    (name path : Bytes) (ctx : EvalContext) (metadata : VfsMetadata) (s3 : State) :
    ∃ t, (stepState (requireEvalAndMark env name path ctx metadata s3)).log
      = s3.log ++ t := by
  unfold requireEvalAndMark
  cases hread : vfsReadFile s3.vfs path with
  | error a =>
    refine ⟨[Event.raised (bytes ("LoadError"))
      (bytes ("cannot load such file -- ") ++ name)], ?_⟩
    simp [stepState, raise_load_error, raiseExc]
  | ok contents =>
    dsimp only
    rw [evalWithContext_eq]
    rcases heval : env.evalRaw contents
      (logEvent (.evalSource ctx.filename) (pushContext ctx s3)) with ⟨r2, s4⟩
    obtain ⟨t1, ht1⟩ : ∃ t1, s4.log = s3.log ++ (Event.evalSource ctx.filename :: t1) := by
      have hh := hA.2 contents (logEvent (.evalSource ctx.filename) (pushContext ctx s3))
      rw [heval] at hh
      obtain ⟨t1, ht1⟩ := hh
      exact ⟨t1, by simpa [logEvent, pushContext] using ht1⟩
    dsimp only
    cases r2 with
    | error msg =>
      refine ⟨Event.evalSource ctx.filename :: t1
        ++ [Event.raised (bytes ("RuntimeError")) msg], ?_⟩
      simp [stepState, raiseExc, popContext, ht1]
    | ok u =>
      dsimp only
      cases hset : vfsSetMetadata (popContext s4).vfs path metadata.markRequired with
      | ok vfs2 =>
        exact ⟨Event.evalSource ctx.filename :: t1, by simp [stepState, popContext, ht1]⟩
      | error msg =>
        refine ⟨Event.evalSource ctx.filename :: t1
          ++ [Event.raised (bytes ("RuntimeError")) msg], ?_⟩
        simp [stepState, raiseExc, popContext, ht1]

theorem requireStep_log (env : Env) (hA : EnvAppending env) (name path : Bytes)
    (s : State) :
    ∃ t, (stepState (requireStep env name path s)).log = s.log ++ t := by
  unfold requireStep
  by_cases hf : vfsIsFile s.vfs path = false
  · exact ⟨[], by simp [hf, stepState]⟩
  · rw [if_neg hf]
    by_cases hr : ((vfsMetadataOf s.vfs path).getD VfsMetadata.new).alreadyRequired = true
    · rw [if_pos hr]
      exact ⟨[], by simp [stepState]⟩
    · rw [if_neg hr]
      dsimp only
      obtain ⟨t1, ht1⟩ := requireNative_log env hA path
        (if utf8Valid path then ⟨path⟩ else ⟨bytes ("(require)")⟩)
        ((vfsMetadataOf s.vfs path).getD VfsMetadata.new) s
      cases hcase : requireNative env path
          (if utf8Valid path then ⟨path⟩ else ⟨bytes ("(require)")⟩)
          ((vfsMetadataOf s.vfs path).getD VfsMetadata.new) s with
      | error out =>
        rw [hcase] at ht1
        exact ⟨t1, by simpa [stepStateN, stepState] using ht1⟩
      | ok s3 =>
        rw [hcase] at ht1
        simp only [stepStateN] at ht1
        obtain ⟨t2, ht2⟩ := requireEvalAndMark_log env hA name path
          (if utf8Valid path then ⟨path⟩ else ⟨bytes ("(require)")⟩)
          ((vfsMetadataOf s.vfs path).getD VfsMetadata.new) s3
        exact ⟨t1 ++ t2, by simp [ht2, ht1, List.append_assoc]⟩

theorem requireLoop_log (env : Env) (hA : EnvAppending env) (name : Bytes) :
    ∀ (cs : List Bytes) (succ : Bool) (s : State),
      ∃ t, ((requireLoop env name cs succ s).2).log = s.log ++ t := by
  intro cs
  induction cs with
  | nil =>
    intro succ s
    cases succ with
    | true => exact ⟨[], by simp [requireLoop]⟩
    | false =>
      refine ⟨[Event.raised (bytes ("LoadError"))
        (bytes ("cannot load such file -- ") ++ name)], ?_⟩
      simp [requireLoop, raise_load_error, raiseExc]
  | cons path rest ih =>
    intro succ s
    obtain ⟨t1, ht1⟩ := requireStep_log env hA name path s
    simp only [requireLoop]
    cases hcase : requireStep env name path s with
    | error out =>
      rw [hcase] at ht1
      exact ⟨t1, by simpa [stepState] using ht1⟩
    | ok pair =>
      obtain ⟨b, s2⟩ := pair
      rw [hcase] at ht1
      simp only [stepState] at ht1
      obtain ⟨t2, ht2⟩ := ih (succ || b) s2
      exact ⟨t1 ++ t2, by simp [ht2, ht1, List.append_assoc]⟩

theorem vfsIsFile_readFile (v : Vfs) (p : Bytes) (h : vfsIsFile v p = true) :
    ∃ cnt, vfsReadFile v p = .ok cnt := by
  unfold vfsIsFile at h
  unfold vfsReadFile
  cases hl : vfsLookup v p with
  | none => rw [hl] at h; exact absurd h (by simp)
  | some e =>
    rw [hl] at h
    simp only [Bool.not_eq_true'] at h
    exact ⟨e.content, by simp [h]⟩

theorem requireEvalAndMark_both (env : Env) (hA : EnvAppending env) (name c : Bytes)
    (ctx : EvalContext) (metadata : VfsMetadata) (s3 : State)
    (hfile : vfsIsFile s3.vfs c = true) :
    ∃ t, (stepState (requireEvalAndMark env name c ctx metadata s3)).log
      = s3.log ++ (Event.evalSource ctx.filename :: t) := by
  obtain ⟨cnt, hcnt⟩ := vfsIsFile_readFile s3.vfs c hfile
  unfold requireEvalAndMark
  rw [hcnt]
  dsimp only
  rw [evalWithContext_eq]
  rcases heval : env.evalRaw cnt
    (logEvent (.evalSource ctx.filename) (pushContext ctx s3)) with ⟨r2, s4⟩
  obtain ⟨t1, ht1⟩ : ∃ t1, s4.log = s3.log ++ (Event.evalSource ctx.filename :: t1) := by
    have hh := hA.2 cnt (logEvent (.evalSource ctx.filename) (pushContext ctx s3))
    rw [heval] at hh
    obtain ⟨t1, ht1⟩ := hh
    exact ⟨t1, by simpa [logEvent, pushContext] using ht1⟩
  dsimp only
  cases r2 with
  | error msg =>
    refine ⟨t1 ++ [Event.raised (bytes ("RuntimeError")) msg], ?_⟩
    simp [stepState, raiseExc, popContext, ht1]
  | ok u =>
    dsimp only
    cases hset : vfsSetMetadata (popContext s4).vfs c metadata.markRequired with
    | ok vfs2 => exact ⟨t1, by simp [stepState, popContext, ht1]⟩
    | error msg =>
      refine ⟨t1 ++ [Event.raised (bytes ("RuntimeError")) msg], ?_⟩
      simp [stepState, raiseExc, popContext, ht1]

theorem requireStep_both (env : Env) (hA : EnvAppending env) (name c : Bytes) (s : State)
    (h1 : vfsIsFile s.vfs c = true) (h2 : metaRequired s.vfs c = false)
    (h3 : metaHasLoader s.vfs c = true) (h4 : utf8Valid c = true)
    (hOkC : ∀ st, (env.loader c st).1 = Except.ok ())
    (hKeep : ∀ st, vfsIsFile st.vfs c = true → vfsIsFile ((env.loader c st).2).vfs c = true) :
    ∃ t1 t2, (stepState (requireStep env name c s)).log
      = s.log ++ (Event.nativeLoader c :: (t1 ++ Event.evalSource c :: t2)) := by
  have hr : ((vfsMetadataOf s.vfs c).getD VfsMetadata.new).alreadyRequired = false := by
    rw [getD_alreadyRequired]; exact h2
  have hL : ((vfsMetadataOf s.vfs c).getD VfsMetadata.new).hasNativeLoader = true := by
    rw [getD_hasNativeLoader]; exact h3
  unfold requireStep
  rw [if_neg (by simp [h1])]
  rw [if_neg (by simp [hr])]
  dsimp only
  rw [if_pos h4]
  rcases hload : env.loader c
    (logEvent (.nativeLoader c) (pushContext (⟨c⟩ : EvalContext) s)) with ⟨r, s2⟩
  have hre : r = Except.ok () := by
    have hh := hOkC (logEvent (.nativeLoader c) (pushContext (⟨c⟩ : EvalContext) s))
    rw [hload] at hh
    exact hh
  subst hre
  have hnat : requireNative env c (⟨c⟩ : EvalContext)
      ((vfsMetadataOf s.vfs c).getD VfsMetadata.new) s = .ok (popContext s2) := by
    unfold requireNative
    rw [if_pos hL]
    dsimp only
    rw [hload]
  rw [hnat]
  dsimp only
  have hfile2 : vfsIsFile (popContext s2).vfs c = true := by
    have hh := hKeep (logEvent (.nativeLoader c) (pushContext (⟨c⟩ : EvalContext) s))
    rw [hload] at hh
    exact hh h1
  obtain ⟨t2, ht2⟩ := requireEvalAndMark_both env hA name c (⟨c⟩ : EvalContext)
    ((vfsMetadataOf s.vfs c).getD VfsMetadata.new) (popContext s2) hfile2
  obtain ⟨t1, ht1⟩ : ∃ t1, s2.log = s.log ++ (Event.nativeLoader c :: t1) := by
    have hh := hA.1 c (logEvent (.nativeLoader c) (pushContext (⟨c⟩ : EvalContext) s))
    rw [hload] at hh
    obtain ⟨t1, ht1⟩ := hh
    exact ⟨t1, by simpa [logEvent, pushContext] using ht1⟩
  refine ⟨t1, t2, ?_⟩
  rw [ht2]
  simp [popContext, ht1, List.append_assoc]

theorem cstrToStr_valid (raw : Bytes) (h : utf8Valid raw = true) :
    cstrToStr raw = some raw := by
  simp [cstrToStr, h]

/-- Claim C2: for every requested name whose first file candidate is already marked
required, a subsequent require returns the VM false value and performs no side
effects at all: the interpreter state, including the Vfs, the context stack,
the exception slot and the boundary event trace, is returned exactly as it
was, so no native loader ran and no source text was evaluated. -/
theorem requireAlreadyRequiredNoOp (env : Env) (s : State) (rawName c : Bytes)
    (pre post : List Bytes)
    (hvalid : utf8Valid rawName = true)
    (hsplit : candidatePaths rawName = pre ++ c :: post)
    (hpre : ∀ p ∈ pre, vfsIsFile s.vfs p = false)
    (hfile : vfsIsFile s.vfs c = true)
    (hreq : metaRequired s.vfs c = true) :
    require env s rawName = (MrbValue.bool false, s) := by
  unfold require
  rw [cstrToStr_valid rawName hvalid]
  dsimp only
  rw [hsplit, requireLoop_skip env rawName pre (c :: post) false s hpre]
  simp [requireLoop, requireStep_already env rawName c s hfile hreq]

/-- Witness for C2 at the scenario of the sources: the name foo resolves to a
path whose file is already marked required, and the require is a no-op
returning false. -/
theorem requireAlreadyRequiredNoOpWitness :
    require envId stateRequiredFoo (bytes ("foo")) = (MrbValue.bool false, stateRequiredFoo) :=
  requireAlreadyRequiredNoOp envId stateRequiredFoo (bytes ("foo"))
    (bytes ("/src/lib/foo.rb")) [bytes ("/src/lib/foo")] []
    (by decide) (by decide) (by decide) (by decide) (by decide)

/-- Claim C3: when no candidate path of the requested name is a file in the Vfs,
require raises a LoadError whose message is exactly the load-error text
followed by the original requested name, unresolved. -/
theorem requireMissingRaisesLoadError (env : Env) (s : State) (rawName : Bytes)
    (hvalid : utf8Valid rawName = true)
    (hnone : ∀ p ∈ candidatePaths rawName, vfsIsFile s.vfs p = false) :
    require env s rawName
      = (MrbValue.bool false,
        raiseExc (bytes ("LoadError")) (bytes ("cannot load such file -- ") ++ rawName) s)
    ∧ ((require env s rawName).2).exc
      = some { eclass := bytes ("LoadError"),
               message := bytes ("cannot load such file -- ") ++ rawName,
               backtrace := [] } := by
  have hmain : require env s rawName
      = (MrbValue.bool false,
        raiseExc (bytes ("LoadError")) (bytes ("cannot load such file -- ") ++ rawName) s) := by
    unfold require
    rw [cstrToStr_valid rawName hvalid]
    dsimp only
    rw [← List.append_nil (candidatePaths rawName),
      requireLoop_skip env rawName (candidatePaths rawName) [] false s hnone]
    simp [requireLoop, raise_load_error]
  exact ⟨hmain, by rw [hmain]; simp [raiseExc]⟩

/-- Witness for C3 at the missing module scenario of the sources. -/
theorem requireMissingRaisesLoadErrorWitness :
    require envId freshState (bytes ("non-existent-source"))
      = (MrbValue.bool false,
        raiseExc (bytes ("LoadError"))
          (bytes ("cannot load such file -- ") ++ bytes ("non-existent-source")) freshState)
    ∧ ((require envId freshState (bytes ("non-existent-source"))).2).exc
      = some { eclass := bytes ("LoadError"),
               message := bytes ("cannot load such file -- ") ++ bytes ("non-existent-source"),
               backtrace := [] } :=
  requireMissingRaisesLoadError envId freshState (bytes ("non-existent-source"))
    (by decide) (by decide)

/-- Claim C10: when the argument bytes are not valid UTF-8, require raises an
ArgumentError on the VM and returns the VM nil value, and the returned state
differs from the input state only in the pending-exception slot and the raise
trace entry: the Vfs, the context stack and hence all resolution, loading and
metadata state are untouched. -/
theorem requireInvalidUtf8 (env : Env) (s : State) (rawName : Bytes)
    (hbad : utf8Valid rawName = false) :
    require env s rawName
      = (MrbValue.nil, raiseExc (bytes ("ArgumentError")) (utf8ErrorMsg rawName) s)
    ∧ ((require env s rawName).2).vfs = s.vfs
    ∧ ((require env s rawName).2).contextStack = s.contextStack
    ∧ ((require env s rawName).2).exc
      = some { eclass := bytes ("ArgumentError"), message := utf8ErrorMsg rawName,
               backtrace := [] }
    ∧ ((require env s rawName).2).log
      = s.log ++ [Event.raised (bytes ("ArgumentError")) (utf8ErrorMsg rawName)] := by
  have hmain : require env s rawName
      = (MrbValue.nil, raiseExc (bytes ("ArgumentError")) (utf8ErrorMsg rawName) s) := by
    unfold require
    simp [cstrToStr, hbad]
  refine ⟨hmain, ?_, ?_, ?_, ?_⟩ <;> rw [hmain] <;> simp [raiseExc]

/-- Witness for C10 at the lone continuation byte 0xFF, which is not valid
UTF-8. -/
theorem requireInvalidUtf8Witness :
    require envId freshState [255]
      = (MrbValue.nil, raiseExc (bytes ("ArgumentError")) (utf8ErrorMsg [255]) freshState)
    ∧ ((require envId freshState [255]).2).vfs = freshState.vfs
    ∧ ((require envId freshState [255]).2).contextStack = freshState.contextStack
    ∧ ((require envId freshState [255]).2).exc
      = some { eclass := bytes ("ArgumentError"), message := utf8ErrorMsg [255],
               backtrace := [] }
    ∧ ((require envId freshState [255]).2).log
      = freshState.log ++ [Event.raised (bytes ("ArgumentError")) (utf8ErrorMsg [255])] :=
  requireInvalidUtf8 envId freshState [255] (by decide)

/-- Claim C7: the already-required mark is monotone across any require call: given
that the native loaders and the source evaluator themselves never clear the
mark, any path marked required before a require call is still marked required
after it, on every exit path; requires only ever leave the mark unchanged or
set it. -/
theorem requireMetaMonotone (env : Env) (hM : EnvMetaMonotone env) (s : State)
    (rawName p : Bytes) (h : metaRequired s.vfs p = true) :
    metaRequired ((require env s rawName).2).vfs p = true := by
  unfold require
  cases hdec : cstrToStr rawName with
  | none => simpa [raiseExc] using h
  | some name => exact requireLoop_meta env hM name (candidatePaths name) false s p h

/-- Witness for C7: a require that loads a fresh file leaves an unrelated
already-required mark in place. -/
theorem requireMetaMonotoneWitness :
    metaRequired ((require envId
      { stateRequiredQ with
        vfs := stateRequiredQ.vfs ++ [(bytes ("/a.rb"), entrySrcOnly)] }
      (bytes ("/a"))).2).vfs (bytes ("/q")) = true :=
  requireMetaMonotone envId ⟨fun _ _ _ h => h, fun _ _ _ h => h⟩
    { stateRequiredQ with
      vfs := stateRequiredQ.vfs ++ [(bytes ("/a.rb"), entrySrcOnly)] }
    (bytes ("/a")) (bytes ("/q")) (by decide)

/-- Claim C8 counterexample: when a candidate's registered native loader fails, the
raising macro early-returns out of the require entry point before the pop, so
the EvalContext pushed for that candidate survives the call: requiring the
native-loader-only file at /x with a failing loader returns nil and leaves the
context stack one deeper than before, refuting the claim that the depth after
any require equals the depth before. -/
theorem requireLoaderErrorLeaksContext :
    ((require envFail stateSlashX (bytes ("/x"))).2).contextStack
        = [{ filename := bytes ("/x") }]
    ∧ stateSlashX.contextStack = []
    ∧ (require envFail stateSlashX (bytes ("/x"))).1 = MrbValue.nil := by
  refine ⟨?_, rfl, ?_⟩ <;> rfl

/-- Claim C8 amended: every EvalContext pushed by a require call is popped before
the call returns, provided every invoked native loader succeeds (and the
loaders and source evaluator are themselves context-balanced); when a native
loader fails, the context pushed for that candidate is not popped. -/
theorem requireBalancedContextStack (env : Env) (hOk : ∀ p, AlwaysOk (env.loader p))
    (hS : EnvStackPreserving env) (s : State) (rawName : Bytes) :
    ((require env s rawName).2).contextStack = s.contextStack := by
  unfold require
  cases hdec : cstrToStr rawName with
  | none => simp [raiseExc]
  | some name => exact requireLoop_stack env hOk hS name (candidatePaths name) false s

/-- Witness for C8 amended: a successful require of the source file at /a.rb
returns with the context stack exactly as before. -/
theorem requireBalancedContextStackWitness :
    ((require envId stateSlashA (bytes ("/a"))).2).contextStack
      = stateSlashA.contextStack :=
  requireBalancedContextStack envId (fun _ _ => rfl) ⟨fun _ _ => rfl, fun _ _ => rfl⟩
    stateSlashA (bytes ("/a"))

/-- Claim C5 counterexample: for the absolute requested name /a, the claim says the
single candidate /a is tried, so with no file at /a the require must raise a
LoadError; the code instead also tries /a.rb (joining an absolute name replaces
the base, so the extension candidate survives), finds the file there, loads it
and returns true with no exception, marking /a.rb required. -/
theorem requireAbsoluteTriesExtensionCandidate :
    (require envId stateSlashA (bytes ("/a"))).1 = MrbValue.bool true
    ∧ ((require envId stateSlashA (bytes ("/a"))).2).exc = none
    ∧ metaRequired ((require envId stateSlashA (bytes ("/a"))).2).vfs (bytes ("/a.rb")) = true
    ∧ candidatePaths (bytes ("/a")) ≠ [bytes ("/a")] := by
  refine ⟨rfl, rfl, rfl, ?_⟩
  decide

/-- Claim C5 amended: for every requested name, require tries exactly the two
candidates base joined with the name and base joined with the name plus the
.rb extension, in that order, where the base is the load root for a relative
name; for an absolute name the joins replace the base, so the candidates are
the name itself followed by the name with the .rb extension appended. -/
theorem candidatePathsCharacterization :
    (∀ name, isAbsolute name = false →
      candidatePaths name
        = [rubyLoadPath ++ [47] ++ name, rubyLoadPath ++ [47] ++ (name ++ bytes (".rb"))])
    ∧ ∀ name, isAbsolute name = true →
      candidatePaths name = [name, name ++ bytes (".rb")] := by
  constructor
  · intro name h
    have h2 : isAbsolute (name ++ bytes (".rb")) = false := by
      cases name with
      | nil => decide
      | cons b rest => simpa [isAbsolute] using h
    simp [candidatePaths, pathJoin, h, h2]
  · intro name h
    have h2 : isAbsolute (name ++ bytes (".rb")) = true := by
      cases name with
      | nil => simp [isAbsolute] at h
      | cons b rest => simpa [isAbsolute] using h
    simp [candidatePaths, pathJoin, h, h2]

/-- Witness for C5 amended at a relative and an absolute name. -/
theorem candidatePathsCharacterizationWitness :
    candidatePaths (bytes ("foo"))
      = [rubyLoadPath ++ [47] ++ bytes ("foo"),
         rubyLoadPath ++ [47] ++ (bytes ("foo") ++ bytes (".rb"))]
    ∧ candidatePaths (bytes ("/a")) = [bytes ("/a"), bytes ("/a") ++ bytes (".rb")] :=
  ⟨candidatePathsCharacterization.1 (bytes ("foo")) (by decide),
   candidatePathsCharacterization.2 (bytes ("/a")) (by decide)⟩

theorem register_comm (p cont : Bytes) : ∀ v : Vfs,
    registerNativeLoader (registerSource v p cont) p
      = registerSource (registerNativeLoader v p) p cont := by
  intro v
  induction v with
  | nil => simp [registerSource, registerNativeLoader, VfsMetadata.new]
  | cons head rest ih =>
    obtain ⟨q, e⟩ := head
    by_cases hq : q = p
    · subst hq
      simp [registerSource, registerNativeLoader]
    · simp [registerSource, registerNativeLoader, hq, ih]

/-- Claim C1: for a requested name resolving to a file candidate that carries both a
registered native loader and registered source text and is not yet required,
one require call emits the native-loader invocation strictly before the
source-text evaluation of that candidate (given that the loader succeeds,
keeps the candidate a file, and all boundary effects only append to the
trace); and registering the native loader and the source text for the same
path commutes, so the behavior does not depend on which was registered
first. -/
theorem requireNativeBeforeSource (env : Env) (hA : EnvAppending env) (s : State)
    (rawName c : Bytes) (pre post : List Bytes)
    (hvalid : utf8Valid rawName = true)
    (hsplit : candidatePaths rawName = pre ++ c :: post)
    (hpre : ∀ p ∈ pre, vfsIsFile s.vfs p = false)
    (hfile : vfsIsFile s.vfs c = true)
    (hnreq : metaRequired s.vfs c = false)
    (hloader : metaHasLoader s.vfs c = true)
    (hcvalid : utf8Valid c = true)
    (hOkC : ∀ st, (env.loader c st).1 = Except.ok ())
    (hKeep : ∀ st, vfsIsFile st.vfs c = true →
      vfsIsFile ((env.loader c st).2).vfs c = true) :
    (∃ t1 t2, ((require env s rawName).2).log
      = s.log ++ (Event.nativeLoader c :: (t1 ++ Event.evalSource c :: t2)))
    ∧ ∀ v cont, registerNativeLoader (registerSource v c cont) c
        = registerSource (registerNativeLoader v c) c cont := by
  refine ⟨?_, fun v cont => register_comm c cont v⟩
  unfold require
  rw [cstrToStr_valid rawName hvalid]
  dsimp only
  rw [hsplit, requireLoop_skip env rawName pre (c :: post) false s hpre]
  obtain ⟨t1, t2, hlog⟩ :=
    requireStep_both env hA rawName c s hfile hnreq hloader hcvalid hOkC hKeep
  simp only [requireLoop]
  cases hcase : requireStep env rawName c s with
  | error out =>
    rw [hcase] at hlog
    simp only [stepState] at hlog
    exact ⟨t1, t2, hlog⟩
  | ok pair =>
    obtain ⟨b, s2⟩ := pair
    rw [hcase] at hlog
    simp only [stepState] at hlog
    obtain ⟨t3, ht3⟩ := requireLoop_log env hA rawName post (false || b) s2
    refine ⟨t1, t2 ++ t3, ?_⟩
    rw [ht3, hlog]
    simp [List.append_assoc]

/-- Witness for C1 at the scenario of the sources: the name foo resolves to
/src/lib/foo.rb, which carries both a native loader and source text, and the
one require emits the native loader invocation before the source evaluation. -/
theorem requireNativeBeforeSourceWitness :
    (∃ t1 t2, ((require envId stateBothFoo (bytes ("foo"))).2).log
      = stateBothFoo.log ++ (Event.nativeLoader (bytes ("/src/lib/foo.rb"))
          :: (t1 ++ Event.evalSource (bytes ("/src/lib/foo.rb")) :: t2)))
    ∧ ∀ v cont,
        registerNativeLoader (registerSource v (bytes ("/src/lib/foo.rb")) cont)
          (bytes ("/src/lib/foo.rb"))
        = registerSource (registerNativeLoader v (bytes ("/src/lib/foo.rb")))
            (bytes ("/src/lib/foo.rb")) cont :=
  requireNativeBeforeSource envId
    ⟨fun _ s => ⟨[], (List.append_nil s.log).symm⟩,
     fun _ s => ⟨[], (List.append_nil s.log).symm⟩⟩
    stateBothFoo (bytes ("foo")) (bytes ("/src/lib/foo.rb"))
    [bytes ("/src/lib/foo")] []
    (by decide) (by decide) (by decide) (by decide) (by decide) (by decide) (by decide)
    (fun _ => rfl) (fun _ h => h)

/-- Claim C4: current_exception clears the pending-exception slot before inspecting
(the clear event precedes the inspect event and the returned state's slot is
empty on every path); it answers nothing when no exception was pending, and
otherwise the textual inspection prepended to the backtrace lines joined with
newlines; the whole operation is bracketed by a GC arena savepoint restored on
exit, and a subsequent extraction on the returned interpreter state observes
no residual exception. -/
theorem currentExceptionSpec (s : State) :
    ((current_exception s).2).exc = none
    ∧ ((current_exception s).2).arena = s.arena
    ∧ (s.exc = none → (current_exception s).1 = none)
    ∧ (∀ e, s.exc = some e →
        (current_exception s).1
          = some (joinWith (bytes ("\n")) (e.inspectText :: e.backtrace))
        ∧ ((current_exception s).2).log
          = s.log ++ [Event.arenaSaved s.arena, Event.excCleared, Event.inspected,
              Event.arenaRestored s.arena])
    ∧ (current_exception ((current_exception s).2)).1 = none := by
  cases hexc : s.exc with
  | none =>
    refine ⟨?_, ?_, ?_, ?_, ?_⟩ <;> simp [current_exception, logEvent, hexc]
  | some e =>
    refine ⟨?_, ?_, ?_, ?_, ?_⟩ <;> simp [current_exception, logEvent, hexc]

/-- Witness for C4 at a concrete pending exception with one backtrace line. -/
theorem currentExceptionSpecWitness :
    (current_exception statePendingExc).1
      = some (joinWith (bytes ("\n")) (excWaffles.inspectText :: excWaffles.backtrace))
    ∧ ((current_exception statePendingExc).2).arena = 3
    ∧ (current_exception ((current_exception statePendingExc).2)).1 = none :=
  ⟨((currentExceptionSpec statePendingExc).2.2.2.1 excWaffles rfl).1,
   (currentExceptionSpec statePendingExc).2.1,
   (currentExceptionSpec statePendingExc).2.2.2.2⟩

/-- Claim C6: create fails with the allocation error exactly when the VM reports a
null instance; on success the returned state has the require function
installed as a Kernel self method, the ScriptError and LoadError classes
defined with superclass links forming the hierarchy rooted at the
pre-existing Exception class, and the boundary trace shows the one throwaway
evaluation bracketed by an arena savepoint and its restore followed by a full
collection, with the arena depth back at its initial value. -/
theorem createSpec :
    create false = Except.error MrbError.New
    ∧ ∃ s, create true = Except.ok s
        ∧ (bytes ("Kernel"), bytes ("require")) ∈ s.selfMethods
        ∧ findClass s (bytes ("ScriptError"))
            = some { name := bytes ("ScriptError"), superclass := some (bytes ("Exception")) }
        ∧ findClass s (bytes ("LoadError"))
            = some { name := bytes ("LoadError"), superclass := some (bytes ("ScriptError")) }
        ∧ findClass s (bytes ("Exception"))
            = some { name := bytes ("Exception"), superclass := none }
        ∧ s.arena = 0
        ∧ s.vmInitialized = true
        ∧ s.log = [Event.definedModule (bytes ("Kernel")),
            Event.installedSelfMethod (bytes ("Kernel")) (bytes ("require")),
            Event.definedClass (bytes ("ScriptError")) (some (bytes ("Exception"))),
            Event.definedClass (bytes ("LoadError")) (some (bytes ("ScriptError"))),
            Event.arenaSaved 0, Event.evalTop [], Event.arenaRestored 0, Event.fullGc] := by
  exact ⟨rfl, _, rfl, by decide⟩

/-- Claim C9: from_user_data fails with the uninitialized error exactly when the raw
VM pointer is null or its stored user-data payload is null; otherwise it
returns the stored handle id unchanged with the shared-ownership count
incremented by one, leaving the stored original in place. -/
theorem fromUserDataSpec :
    (∀ mrb cell, (∃ err, from_user_data mrb cell = Except.error err)
        ↔ (mrb = none ∨ mrb = some { ud := none }))
    ∧ (∀ mrb cell err, from_user_data mrb cell = Except.error err
        → err = MrbError.Uninitialized)
    ∧ (∀ id cell, from_user_data (some { ud := some id }) cell
        = Except.ok (id, { strong := cell.strong + 1 })) := by
  refine ⟨?_, ?_, fun id cell => rfl⟩
  · intro mrb cell
    cases mrb with
    | none => simp [from_user_data]
    | some m =>
      obtain ⟨ud⟩ := m
      cases ud with
      | none => simp [from_user_data]
      | some id => simp [from_user_data]
  · intro mrb cell err h
    cases mrb with
    | none => simpa [from_user_data] using h.symm
    | some m =>
      obtain ⟨ud⟩ := m
      cases ud with
      | none => simpa [from_user_data] using h.symm
      | some id => simp [from_user_data] at h

/-- Witness for C9 at a concrete stored handle and reference count, also
exercising the null-pointer failure direction. -/
theorem fromUserDataSpecWitness :
    from_user_data (some { ud := some 5 }) { strong := 7 }
      = Except.ok (5, { strong := 8 })
    ∧ (∃ err, from_user_data none { strong := 1 } = Except.error err)
    ∧ MrbError.Uninitialized = MrbError.Uninitialized :=
  ⟨fromUserDataSpec.2.2 5 { strong := 7 },
   (fromUserDataSpec.1 none { strong := 1 }).2 (Or.inl rfl),
   fromUserDataSpec.2.1 none { strong := 1 } MrbError.Uninitialized rfl⟩
